import Mathlib

/-!
Verification development for the `mtga-deck-builder` repository.

The definitions below are a shallow embedding of `build_deck` in
`src/mtga_deck_builder.py` (lines 71-123) together with the card-record
shape produced by `src/generate_card_data.py` (lines 25-32).  Pure Python
data (lists, dicts kept in insertion order, pandas columns) is modelled by
Lean lists; the `Counter` tally is an insertion-ordered association list;
Python's `round` (banker's rounding on an exact ratio) is modelled by
`roundHalfEven` on natural numerator/denominator.
-/

set_option linter.unusedVariables false

/-- Card record as produced by `generate_card_data.py` lines 25-32: one entry
per unique card name, carrying the primary type (text before the type-line
separator), a single primary color (first listed color, or `"Colorless"`),
the lowercased keyword list, the mana value, and the comma-joined string of
formats in which the card is legal (line 31). -/
structure Card where
  name : String
  type : String
  color : String
  keywords : List String
  cmc : Nat
  format : String
deriving DecidableEq

/-- Boolean prefix test on character lists. -/
def startsWithChars : List Char → List Char → Bool
  | [], _ => true
  | _ :: _, [] => false
  | a :: as, b :: bs => a == b && startsWithChars as bs

/-- Boolean substring-occurrence test on character lists. -/
def hasSubstring (pat : List Char) : List Char → Bool
  | [] => startsWithChars pat []
  | c :: t => startsWithChars pat (c :: t) || hasSubstring pat t

/-- Literal substring test, mirroring `filtered['format'].str.contains(fmt)`
in `mtga_deck_builder.py` line 86 (the UI's format strings contain no regex
metacharacters, so pandas' default regex mode degenerates to a literal
substring search). -/
def strContains (s pat : String) : Bool :=
  hasSubstring pat.toList s.toList

/-- Character-wise lowercasing, the semantics of `str.lower()` on the ASCII
keyword strings this program handles. -/
def lowerStr (s : String) : String := ⟨s.data.map Char.toLower⟩

/-- Keyword predicate of `mtga_deck_builder.py` line 82: at least one
selected keyword occurs, case-insensitively, in the card's keyword list. -/
def keywordMatch (sel : List String) (cardKws : List String) : Bool :=
  sel.any fun kw => (cardKws.map lowerStr).contains (lowerStr kw)

/-- Lines 81-82: keyword filter, applied only when keywords were selected. -/
def keywordStage (pool : List Card) (kws : List String) : List Card :=
  if kws.isEmpty then pool
  else pool.filter fun c => keywordMatch kws c.keywords

/-- Lines 83-84: color membership filter, applied only when colors were
selected. -/
def colorStage (pool : List Card) (cols : List String) : List Card :=
  if cols.isEmpty then pool
  else pool.filter fun c => cols.contains c.color

/-- Lines 85-86: format filter, applied only when the format is not
`"Any"`; pandas `str.contains` is a substring test. -/
def formatStage (pool : List Card) (fmt : String) : List Card :=
  if fmt = "Any" then pool
  else pool.filter fun c => strContains c.format fmt

/-- Filter stage of `build_deck`, lines 81-86. -/
def filterPool (pool : List Card) (kws cols : List String) (fmt : String) :
    List Card :=
  formatStage (colorStage (keywordStage pool kws) cols) fmt

/-- Lexicographic (code-point) comparison of character lists — the ordering
Python applies when comparing strings. -/
def lexLEb : List Char → List Char → Bool
  | [], _ => true
  | _ :: _, [] => false
  | a :: as, b :: bs =>
    if a < b then true else if b < a then false else lexLEb as bs

/-- Strict lexicographic (code-point) comparison of character lists. -/
def lexLTb : List Char → List Char → Bool
  | [], [] => false
  | [], _ :: _ => true
  | _ :: _, [] => false
  | a :: as, b :: bs =>
    if a < b then true else if b < a then false else lexLTb as bs

/-- Single-key comparison used by `filtered.sort_values(by="type")`
(line 89): order by the `type` field only. -/
def typeLE (a b : Card) : Prop := lexLEb a.type.data b.type.data = true

instance : DecidableRel typeLE :=
  fun a b => inferInstanceAs (Decidable (lexLEb a.type.data b.type.data = true))

instance : IsTotal Card typeLE :=
  ⟨fun a b => by
    unfold typeLE
    suffices h : ∀ x y : List Char, lexLEb x y = true ∨ lexLEb y x = true from
      h a.type.data b.type.data
    intro x
    induction x with
    | nil => intro y; left; rfl
    | cons c cs ih =>
      intro y
      cases y with
      | nil => right; rfl
      | cons d ds =>
        rcases lt_trichotomy c d with h | h | h
        · left; simp [lexLEb, h]
        · subst h
          rcases ih ds with h2 | h2
          · left; simp [lexLEb, lt_irrefl, h2]
          · right; simp [lexLEb, lt_irrefl, h2]
        · right; simp [lexLEb, h]⟩

instance : IsTrans Card typeLE :=
  ⟨fun a b c hab hbc => by
    unfold typeLE at hab hbc ⊢
    revert hab hbc
    generalize a.type.data = x
    generalize b.type.data = y
    generalize c.type.data = z
    revert y z
    induction x with
    | nil => intro y z hab hbc; rfl
    | cons p ps ih =>
      intro y z hab hbc
      cases y with
      | nil => simp [lexLEb] at hab
      | cons q qs =>
        cases z with
        | nil => simp [lexLEb] at hbc
        | cons r rs =>
          by_cases hpq : p < q
          · by_cases hqr : q < r
            · simp [lexLEb, lt_trans hpq hqr]
            · by_cases hrq : r < q
              · simp [lexLEb, hqr, hrq] at hbc
              · have hqr2 : q = r := le_antisymm (not_lt.mp hrq) (not_lt.mp hqr)
                subst hqr2
                simp [lexLEb, hpq]
          · by_cases hqp : q < p
            · simp [lexLEb, hpq, hqp] at hab
            · have hpq2 : p = q := le_antisymm (not_lt.mp hqp) (not_lt.mp hpq)
              subst hpq2
              simp [lexLEb, lt_irrefl] at hab
              by_cases hpr : p < r
              · simp [lexLEb, hpr]
              · by_cases hrp : r < p
                · simp [lexLEb, hpr, hrp] at hbc
                · have hpr2 : p = r := le_antisymm (not_lt.mp hrp) (not_lt.mp hpr)
                  subst hpr2
                  simp [lexLEb, lt_irrefl] at hbc ⊢
                  exact ih qs rs hab hbc⟩

/-- Sorting stage of line 89: a sort on the single key `type` with no
secondary comparison.  pandas' default quicksort leaves the relative order
of equal-type records unspecified, so the code guarantees nothing about tie
order; the model realises one admissible order (the stable one).  No
theorem below depends on the tie order except at a concrete two-element
input, where the source's small-array sort produces this same order. -/
def sortByType (l : List Card) : List Card :=
  List.insertionSort typeLE l

/-- Synergy score of line 97: how many of the selected keywords occur
(case-insensitively) in the card's keyword list; a keyword listed twice in
the selection is counted twice, exactly as the Python generator sum does. -/
def synergyScore (sel : List String) (cardKws : List String) : Nat :=
  (sel.filter fun kw => (cardKws.map lowerStr).contains (lowerStr kw)).length

/-- Copy target of line 98: `count = min(4, max(1, synergy))`. -/
def targetCount (kws : List String) (c : Card) : Nat :=
  min 4 (max 1 (synergyScore kws c.keywords))

/-- Accumulator state of the allocation loop (lines 91-109): the `Counter`
tally in insertion order, the suggestion list, and whether the 36-copy
cutoff has fired. -/
structure BuildState where
  counts : List (String × Nat)
  suggested : List (String × Nat)
  stopped : Bool

/-- Python `Counter.__iadd__` on one key: bump an existing entry in place, or
append a fresh entry at the end (Python dicts preserve insertion order). -/
def addCount : List (String × Nat) → String → Nat → List (String × Nat)
  | [], n, k => [(n, k)]
  | p :: t, n, k =>
    if p.1 = n then (p.1, p.2 + k) :: t else p :: addCount t n k

/-- Tally lookup with default 0, like `Counter.__getitem__`. -/
def lookupCount : List (String × Nat) → String → Nat
  | [], _ => 0
  | p :: t, n => if p.1 = n then p.2 else lookupCount t n

/-- Sum of all tallied copies, `sum(card_counts.values())` (line 108). -/
def totalCounts : List (String × Nat) → Nat
  | [] => 0
  | p :: t => p.2 + totalCounts t

def initState : BuildState := ⟨[], [], false⟩

/-- Body of the `for card in filtered.itertuples()` loop, lines 96-109.
Once the running tally has reached 36 copies the `break` has fired and
later cards are untouched; otherwise an owned card contributes
`min(count, owned_count, 4)` copies to the tally, and an unowned card
contributes `count` copies and is appended to the suggestion list. -/
def stepCard (owned kws : List String) (s : BuildState) (c : Card) :
    BuildState :=
  if s.stopped then s
  else
    let cnt := targetCount kws c
    let newCounts :=
      if owned.contains c.name then
        addCount s.counts c.name (min (min cnt (owned.count c.name)) 4)
      else
        addCount s.counts c.name cnt
    let newSuggested :=
      if owned.contains c.name then s.suggested
      else s.suggested ++ [(c.name, cnt)]
    { counts := newCounts, suggested := newSuggested,
      stopped := decide (36 ≤ totalCounts newCounts) }

/-- Lines 111-113: flatten the tally into the spell list, each name repeated
by its tallied count, in tally insertion order. -/
def spellList (counts : List (String × Nat)) : List String :=
  counts.foldr (fun p acc => List.replicate p.2 p.1 ++ acc) []

/-- Occurrence counts of a string list in first-appearance order. -/
def countOccurrences (l : List String) : List (String × Nat) :=
  l.foldl (fun acc x => addCount acc x 1) []

/-- Descending-count comparison used to model the `value_counts()` ordering
(most frequent first; ties keep first-appearance order, which the stable
insertion sort below provides). -/
def descCountLE (p q : String × Nat) : Prop := q.2 ≤ p.2

instance : DecidableRel descCountLE :=
  fun p q => inferInstanceAs (Decidable (q.2 ≤ p.2))

/-- Line 115: `filtered[filtered['name'].isin(deck)]["color"].value_counts()`.
The rows of `filtered` whose name occurs in the deck are counted per color
value — one count per row, i.e. per distinct card name, not per deck copy —
and listed most-frequent first. -/
def colorValueCounts (filtered : List Card) (deck : List String) :
    List (String × Nat) :=
  List.insertionSort descCountLE
    (countOccurrences ((filtered.filter fun c => deck.contains c.name).map
      Card.color))

/-- Python's `round` on an exact non-negative ratio `num / den`: round half
to even.  (`build_deck` feeds it `(count / total) * slots` computed in
floating point; all inputs used in the theorems below are exactly
representable, so the rational model agrees.) -/
def roundHalfEven (num den : Nat) : Nat :=
  if den = 0 then 0
  else
    let q := num / den
    let r := num % den
    if 2 * r < den then q
    else if den < 2 * r then q + 1
    else if q % 2 = 0 then q else q + 1

/-- Conditional-expression chain of line 119: Green, Red, White and Blue map
to their basic lands and every other color value — Black, but also
`"Colorless"` — falls through to `"Swamp"`. -/
def landNameFor (color : String) : String :=
  if color = "Green" then "Forest"
  else if color = "Red" then "Mountain"
  else if color = "White" then "Plains"
  else if color = "Blue" then "Island"
  else "Swamp"

/-- Land loop of lines 118-121.  Note that `land_amount` is computed from
`60 - len(deck)` on the deck that has already been extended by the lands of
the previously processed colors, so the slot count shrinks as the loop
advances; `total` stays fixed. -/
def extendLands (colors : List (String × Nat)) (total : Nat)
    (deck : List String) : List String :=
  match colors with
  | [] => deck
  | p :: t =>
    extendLands t total
      (deck ++ List.replicate
        (roundHalfEven (p.2 * (60 - deck.length)) total) (landNameFor p.1))

/-- Lines 115-121 as a whole: when at least one deck row was counted, run
the land loop over the per-color counts; otherwise leave the deck alone. -/
def buildLandPhase (filtered : List Card) (deck : List String) :
    List String :=
  let colors := colorValueCounts filtered deck
  let total := totalCounts colors
  if 0 < total then extendLands colors total deck else deck

/-- Function `build_deck` (lines 71-123): filter, sort by type, run the allocation
loop, flatten the tally, pad with lands, and truncate to 60 entries.  The
returned pair is `(deck[:60], suggested_cards)`. -/
def buildDeck (pool : List Card) (owned kws cols : List String)
    (fmt : String) : List String × List (String × Nat) :=
  let filtered := sortByType (filterPool pool kws cols fmt)
  let st := filtered.foldl (stepCard owned kws) initState
  let deck := spellList st.counts
  (List.take 60 (buildLandPhase filtered deck), st.suggested)

/-- Occurrence count of a string in a list. -/
def countStr : List String → String → Nat
  | [], _ => 0
  | y :: t, x => (if y = x then 1 else 0) + countStr t x

/-- Comma splitter for the legality string written by
`generate_card_data.py` line 31 (`",".join(...)`). -/
def splitCommaAux : List Char → List Char → List (List Char)
  | [], acc => [acc.reverse]
  | c :: t, acc =>
    if c = ',' then acc.reverse :: splitCommaAux t []
    else splitCommaAux t (c :: acc)

/-- The record's set of legal formats: the components of the comma-joined
legality string. -/
def formatMembers (s : String) : List String :=
  (splitCommaAux s.toList []).map List.asString

/-- Membership reading of the format filter, following the claim's words
("contains the selected format string as a member") for comparison with the
code's substring filter. -/
def specFormatMember (c : Card) (fmt : String) : Prop :=
  fmt ∈ formatMembers c.format

instance (c : Card) (fmt : String) : Decidable (specFormatMember c fmt) :=
  inferInstanceAs (Decidable (fmt ∈ formatMembers c.format))

/-- Two-key ordering stated by the spec for the sorting stage: by `type`
ascending, ties broken by `name` ascending; written from the claim's words
for comparison with the code's single-key sort. -/
def specTwoKeyLE (a b : Card) : Prop :=
  lexLTb a.type.data b.type.data = true ∨
    (a.type = b.type ∧ lexLEb a.name.data b.name.data = true)

instance : DecidableRel specTwoKeyLE :=
  fun a b =>
    inferInstanceAs (Decidable (lexLTb a.type.data b.type.data = true ∨
      (a.type = b.type ∧ lexLEb a.name.data b.name.data = true)))

/-- Copies of a given primary color in the spell deck — the distribution the
claim describes ("count of non-land copies per primary color"), written from
the claim's words for comparison with the code's per-row counting. -/
def copiesPerColor (filtered : List Card) (deck : List String)
    (color : String) : Nat :=
  (deck.filter fun n =>
    filtered.any fun c => c.name == n && c.color == color).length

/-- Total colored copies `T` of the claim's formula, colorless excluded. -/
def totalColorCopies (filtered : List Card) (deck : List String) : Nat :=
  copiesPerColor filtered deck "White" + copiesPerColor filtered deck "Blue" +
    copiesPerColor filtered deck "Black" + copiesPerColor filtered deck "Red" +
    copiesPerColor filtered deck "Green"

/-- Per-color land count `round(c / T * remainingSlots)` with the fixed
`remainingSlots = 60 - |spellDeck|`, written from the claim's words for
comparison with the code's shrinking-slot loop. -/
def claimLandAmount (filtered : List Card) (deck : List String)
    (color : String) : Nat :=
  roundHalfEven
    (copiesPerColor filtered deck color * (60 - deck.length))
    (totalColorCopies filtered deck)

-- Concrete fixtures used by witnesses and counterexamples.

/-- Green creature card used by the all-Green land-allocation example. -/
def gCard (n : String) : Card :=
  ⟨n, "Creature", "Green", ["ramp"], 2, "Historic"⟩

def gNames : List String := ["g1", "g2", "g3", "g4", "g5", "g6", "g7", "g8", "g9"]

def gFiltered : List Card := gNames.map gCard

/-- All-Green spell deck of size 36: four copies of each of nine cards. -/
def gDeck : List String := gNames.flatMap (List.replicate 4)

/-- Colorless card; its color tag is `"Colorless"` per
`generate_card_data.py` line 28. -/
def karnCard : Card := ⟨"Karn", "Artifact", "Colorless", ["ramp"], 4, "Historic"⟩

def cexRedA : Card := ⟨"Abrade", "Instant", "Red", ["burn"], 2, "Historic"⟩
def cexRedC : Card := ⟨"Chandra", "Planeswalker", "Red", ["burn"], 4, "Historic"⟩
def cexGreenB : Card := ⟨"Bloom", "Enchantment", "Green", ["ramp"], 3, "Historic"⟩

def cexFiltered : List Card := [cexRedA, cexRedC, cexGreenB]

/-- Spell deck with 4 + 1 copies of the two red cards and 1 green copy. -/
def cexDeck : List String :=
  ["Abrade", "Abrade", "Abrade", "Abrade", "Chandra", "Bloom"]

def shockCard : Card := ⟨"Shock", "Instant", "Red", ["burn"], 1, "Standard"⟩

/-- Card legal only in Historic and Alchemy. -/
def histCard : Card := ⟨"Recall", "Sorcery", "Blue", ["burn"], 2, "Historic,Alchemy"⟩

/-- Card whose only legal format merely contains `"Standard"` as a proper
substring. -/
def brawlCard : Card := ⟨"Opt", "Instant", "Blue", ["burn"], 1, "Standardbrawl"⟩

def tieCardB : Card := ⟨"Beta", "Instant", "Red", ["burn"], 1, "Historic"⟩
def tieCardA : Card := ⟨"Alpha", "Instant", "Red", ["burn"], 1, "Historic"⟩


-- Shared lemmas about the tally operations and the allocation loop.

lemma totalCounts_addCount (l : List (String × Nat)) (n : String) (k : Nat) :
    totalCounts (addCount l n k) = totalCounts l + k := by
  induction l with
  | nil => simp [addCount, totalCounts]
  | cons p t ih =>
    by_cases h : p.1 = n
    · simp [addCount, h, totalCounts]
      omega
    · simp [addCount, h, totalCounts, ih]
      omega

lemma lookupCount_addCount_self (l : List (String × Nat)) (n : String) (k : Nat) :
    lookupCount (addCount l n k) n = lookupCount l n + k := by
  induction l with
  | nil => simp [addCount, lookupCount]
  | cons p t ih =>
    by_cases h : p.1 = n
    · simp [addCount, h, lookupCount]
    · simp [addCount, h, lookupCount, ih]

lemma lookupCount_addCount_ne (l : List (String × Nat)) (n m : String) (k : Nat)
    (h : n ≠ m) : lookupCount (addCount l n k) m = lookupCount l m := by
  induction l with
  | nil => simp [addCount, lookupCount, h]
  | cons p t ih =>
    by_cases hp : p.1 = n
    · simp [addCount, hp, lookupCount, h]
    · simp [addCount, hp, lookupCount, ih]

lemma stepCard_stopped (owned kws : List String) (s : BuildState) (c : Card)
    (h : s.stopped = true) : stepCard owned kws s c = s := by
  simp [stepCard, h]

lemma stepCard_counts_ne (owned kws : List String) (s : BuildState) (c : Card)
    (m : String) (h : c.name ≠ m) :
    lookupCount (stepCard owned kws s c).counts m = lookupCount s.counts m := by
  by_cases hs : s.stopped = true
  · rw [stepCard_stopped owned kws s c hs]
  · have hsf : s.stopped = false := by simpa using hs
    by_cases hc : owned.contains c.name = true
    · simp only [stepCard, hsf, Bool.false_eq_true, if_false, hc, if_true]
      exact lookupCount_addCount_ne _ _ _ _ h
    · have hcf : owned.contains c.name = false := by simpa using hc
      simp only [stepCard, hsf, Bool.false_eq_true, if_false, hcf, Bool.false_eq_true]
      exact lookupCount_addCount_ne _ _ _ _ h

lemma lookupCount_foldl_not_mem (owned kws : List String) (m : String) :
    ∀ (l : List Card) (s : BuildState), m ∉ l.map Card.name →
      lookupCount ((l.foldl (stepCard owned kws) s).counts) m =
        lookupCount s.counts m := by
  intro l
  induction l with
  | nil => intro s _; rfl
  | cons c t ih =>
    intro s hm
    simp only [List.map_cons, List.mem_cons] at hm
    push_neg at hm
    simp only [List.foldl_cons]
    rw [ih _ hm.2, stepCard_counts_ne owned kws s c m (Ne.symm hm.1)]

lemma targetCount_le_four (kws : List String) (c : Card) : targetCount kws c ≤ 4 :=
  min_le_left _ _

lemma stepCard_invariant (owned kws : List String) (s : BuildState) (c : Card)
    (h39 : totalCounts s.counts ≤ 39)
    (h35 : s.stopped = false → totalCounts s.counts ≤ 35) :
    totalCounts (stepCard owned kws s c).counts ≤ 39 ∧
      ((stepCard owned kws s c).stopped = false →
        totalCounts (stepCard owned kws s c).counts ≤ 35) := by
  by_cases hs : s.stopped = true
  · rw [stepCard_stopped owned kws s c hs]
    exact ⟨h39, h35⟩
  · have hsf : s.stopped = false := by simpa using hs
    have hts : totalCounts s.counts ≤ 35 := h35 hsf
    by_cases hc : owned.contains c.name = true
    · have h4 : min (min (targetCount kws c) (owned.count c.name)) 4 ≤ 4 :=
        min_le_right _ _
      simp only [stepCard, hsf, Bool.false_eq_true, if_false, hc, if_true,
        totalCounts_addCount, decide_eq_false_iff_not, not_le]
      omega
    · have hcf : owned.contains c.name = false := by simpa using hc
      have h4 : targetCount kws c ≤ 4 := targetCount_le_four kws c
      simp only [stepCard, hsf, Bool.false_eq_true, if_false, hcf,
        totalCounts_addCount, decide_eq_false_iff_not, not_le]
      omega

lemma foldl_stepCard_invariant (owned kws : List String) :
    ∀ (l : List Card) (s : BuildState),
      totalCounts s.counts ≤ 39 →
      (s.stopped = false → totalCounts s.counts ≤ 35) →
      totalCounts ((l.foldl (stepCard owned kws) s).counts) ≤ 39 := by
  intro l
  induction l with
  | nil => intro s h39 _; simpa using h39
  | cons c t ih =>
    intro s h39 h35
    have h := stepCard_invariant owned kws s c h39 h35
    simpa using ih _ h.1 h.2

lemma stepCard_owned_lookup (owned kws : List String) (s : BuildState) (c : Card)
    (hs : s.stopped = false) (hc : owned.contains c.name = true) :
    lookupCount (stepCard owned kws s c).counts c.name
      = lookupCount s.counts c.name
        + min (min (targetCount kws c) (owned.count c.name)) 4 := by
  simp only [stepCard, hs, Bool.false_eq_true, if_false, hc, if_true]
  exact lookupCount_addCount_self _ _ _

lemma stepCard_owned_lookup_le (owned kws : List String) (s : BuildState)
    (c : Card) (hc : owned.contains c.name = true) :
    lookupCount (stepCard owned kws s c).counts c.name
      ≤ lookupCount s.counts c.name + owned.count c.name := by
  by_cases hs : s.stopped = true
  · rw [stepCard_stopped owned kws s c hs]
    omega
  · have hsf : s.stopped = false := by simpa using hs
    rw [stepCard_owned_lookup owned kws s c hsf hc]
    have hle : min (min (targetCount kws c) (owned.count c.name)) 4
        ≤ owned.count c.name :=
      le_trans (min_le_left _ _) (min_le_right _ _)
    omega

lemma keywordStage_sublist (pool : List Card) (kws : List String) :
    List.Sublist (keywordStage pool kws) pool := by
  unfold keywordStage
  split
  · exact List.Sublist.refl _
  · exact List.filter_sublist _

lemma colorStage_sublist (pool : List Card) (cols : List String) :
    List.Sublist (colorStage pool cols) pool := by
  unfold colorStage
  split
  · exact List.Sublist.refl _
  · exact List.filter_sublist _

lemma formatStage_sublist (pool : List Card) (fmt : String) :
    List.Sublist (formatStage pool fmt) pool := by
  unfold formatStage
  split
  · exact List.Sublist.refl _
  · exact List.filter_sublist _

lemma filterPool_sublist (pool : List Card) (kws cols : List String)
    (fmt : String) : List.Sublist (filterPool pool kws cols fmt) pool :=
  ((formatStage_sublist _ _).trans (colorStage_sublist _ _)).trans
    (keywordStage_sublist _ _)

lemma filtered_names_nodup (pool : List Card) (kws cols : List String)
    (fmt : String) (h : (pool.map Card.name).Nodup) :
    ((sortByType (filterPool pool kws cols fmt)).map Card.name).Nodup := by
  have h1 : ((filterPool pool kws cols fmt).map Card.name).Nodup :=
    List.Nodup.sublist
      (List.Sublist.map Card.name (filterPool_sublist pool kws cols fmt)) h
  have hp : List.Perm (sortByType (filterPool pool kws cols fmt))
      (filterPool pool kws cols fmt) := List.perm_insertionSort typeLE _
  exact ((hp.map Card.name).nodup_iff).mpr h1

lemma extendLands_append (pre rest : List (String × Nat)) (t : Nat) :
    ∀ d : List String,
      extendLands (pre ++ rest) t d = extendLands rest t (extendLands pre t d) := by
  induction pre with
  | nil => intro d; rfl
  | cons p ps ih =>
    intro d
    simp only [List.cons_append, extendLands]
    exact ih _

-- Theorems settling the claims.

/-- C1 counterexample: on a spell deck with 4+1 copies of two red cards and
one green copy, the claim's formula — per-color copy counts `c` out of `T`
colored copies, a fixed `remainingSlots = 60 - |spellDeck|`, one independent
rounding per color — predicts 45 Mountains and 9 Forests, but the code
produces 36 Mountains and 6 Forests: it counts one unit per distinct card
name rather than per copy, and it recomputes `60 - len(deck)` after each
color's lands have been appended.  The third conjunct shows that even with
the row-based distribution the fixed-slot reading fails for the second
color (it would predict 18 Forests). -/
theorem c1_counterexample :
    countStr (buildLandPhase cexFiltered cexDeck) "Mountain"
        ≠ claimLandAmount cexFiltered cexDeck "Red" ∧
      countStr (buildLandPhase cexFiltered cexDeck) "Forest"
        ≠ claimLandAmount cexFiltered cexDeck "Green" ∧
      countStr (buildLandPhase cexFiltered cexDeck) "Forest"
        ≠ roundHalfEven (1 * (60 - cexDeck.length)) 3 := by
  decide

/-- C1 (amended): the land allocator counts one unit per distinct filtered
card name present in the deck per color value (the `value_counts` rows) and
processes the per-color counts in `value_counts` order with a fixed
denominator `T`; the color reached after the prefix `pre` has been processed
receives exactly `round(c / T * (60 - len(deck-so-far)))` lands of its
mapped basic type, where the deck so far already contains the lands of the
previously processed colors. -/
theorem c1_land_allocation (f : List Card) (d : List String)
    (p : String × Nat) (pre post : List (String × Nat))
    (hdecomp : colorValueCounts f d = pre ++ p :: post)
    (hpos : 0 < totalCounts (colorValueCounts f d)) :
    buildLandPhase f d =
      extendLands post (totalCounts (colorValueCounts f d))
        (extendLands pre (totalCounts (colorValueCounts f d)) d ++
          List.replicate
            (roundHalfEven
              (p.2 * (60 -
                (extendLands pre (totalCounts (colorValueCounts f d)) d).length))
              (totalCounts (colorValueCounts f d)))
            (landNameFor p.1)) := by
  unfold buildLandPhase
  rw [if_pos hpos, hdecomp, extendLands_append]
  rfl

/-- C1 witness: in the counterexample deck the second processed color,
Green with one counted row out of `T = 3`, receives its lands from the
shrunken slot count left after the Mountains. -/
theorem c1_witness :
    buildLandPhase cexFiltered cexDeck =
      extendLands [] (totalCounts (colorValueCounts cexFiltered cexDeck))
        (extendLands [("Red", 2)]
            (totalCounts (colorValueCounts cexFiltered cexDeck)) cexDeck ++
          List.replicate
            (roundHalfEven
              (1 * (60 -
                (extendLands [("Red", 2)]
                  (totalCounts (colorValueCounts cexFiltered cexDeck))
                  cexDeck).length))
              (totalCounts (colorValueCounts cexFiltered cexDeck)))
            (landNameFor "Green")) :=
  c1_land_allocation cexFiltered cexDeck ("Green", 1) [("Red", 2)] []
    (by decide) (by decide)

/-- C2: the conditional chain maps Green, Red, White, Blue and Black to
Forest, Mountain, Plains, Island and Swamp respectively, and on an
all-Green spell deck of size 36 the allocator appends exactly 24 Forests
and nothing else. -/
theorem c2_color_land_mapping :
    (landNameFor "Green" = "Forest" ∧ landNameFor "Red" = "Mountain" ∧
        landNameFor "White" = "Plains" ∧ landNameFor "Blue" = "Island" ∧
        landNameFor "Black" = "Swamp") ∧
      buildLandPhase gFiltered gDeck = gDeck ++ List.replicate 24 "Forest" := by
  decide

/-- C3: contrary to the claim, a Colorless card is not dropped from the
land math — the `value_counts` row for `"Colorless"` is counted in the
denominator and falls through the conditional chain to `"Swamp"`, so a
spell deck consisting of the single Colorless card Karn receives 59 Swamps
on its behalf. -/
theorem c3_colorless_lands :
    landNameFor "Colorless" = "Swamp" ∧
      buildLandPhase [karnCard] ["Karn"] = ["Karn"] ++ List.replicate 59 "Swamp" := by
  decide

/-- C4 counterexample: a record whose only legal format is
`"Standardbrawl"` does not contain `"Standard"` as a member of its legal
formats, yet the filter stage retains it, because line 86 tests substring
containment of the comma-joined legality string. -/
theorem c4_counterexample :
    filterPool [brawlCard] ["burn"] [] "Standard" = [brawlCard] ∧
      ¬ specFormatMember brawlCard "Standard" := by
  decide

/-- C4 (amended): when the selected format is not `"Any"`, the filter stage
retains exactly those records, among the ones passing the keyword and color
filters, whose comma-joined legal-format string contains the selected
format as a substring — a superset of membership. -/
theorem c4_format_filter (pool : List Card) (kws cols : List String)
    (fmt : String) (c : Card) (hfmt : fmt ≠ "Any") :
    c ∈ filterPool pool kws cols fmt ↔
      c ∈ filterPool pool kws cols "Any" ∧ strContains c.format fmt = true := by
  unfold filterPool formatStage
  rw [if_neg hfmt, if_pos rfl]
  exact List.mem_filter

/-- C4 witness: the amended characterisation evaluated on the
`"Standardbrawl"` record with selected format `"Standard"`. -/
theorem c4_witness :
    brawlCard ∈ filterPool [brawlCard] ["burn"] [] "Standard" ↔
      brawlCard ∈ filterPool [brawlCard] ["burn"] [] "Any" ∧
        strContains brawlCard.format "Standard" = true :=
  c4_format_filter [brawlCard] ["burn"] [] "Standard" brawlCard (by decide)

/-- C5: when the loop processes an owned card (the cutoff has not fired),
the tally for that card grows by exactly `min(targetCount, ownedCount, 4)`;
consequently, over any pool with unique card names, the final tally of an
owned card never exceeds its owned count. -/
theorem c5_ownership_bound :
    (∀ (owned kws : List String) (s : BuildState) (c : Card),
        s.stopped = false → owned.contains c.name = true →
        lookupCount (stepCard owned kws s c).counts c.name
          = lookupCount s.counts c.name
            + min (min (targetCount kws c) (owned.count c.name)) 4) ∧
      (∀ (pool : List Card) (owned kws cols : List String) (fmt : String)
          (name : String),
        (pool.map Card.name).Nodup → owned.contains name = true →
        lookupCount
            (((sortByType (filterPool pool kws cols fmt)).foldl
              (stepCard owned kws) initState).counts) name
          ≤ owned.count name) := by
  constructor
  · exact fun owned kws s c hs hc => stepCard_owned_lookup owned kws s c hs hc
  · intro pool owned kws cols fmt name hpool hcont
    have hL := filtered_names_nodup pool kws cols fmt hpool
    by_cases hmem : name ∈ (sortByType (filterPool pool kws cols fmt)).map Card.name
    · rw [List.mem_map] at hmem
      obtain ⟨c, hcL, hcname⟩ := hmem
      subst hcname
      obtain ⟨l₁, l₂, hsplit⟩ := List.append_of_mem hcL
      rw [hsplit] at hL ⊢
      rw [List.map_append, List.map_cons] at hL
      have hd := List.nodup_append.mp hL
      have hn2 : c.name ∉ l₂.map Card.name := (List.nodup_cons.mp hd.2.1).1
      have hn1 : c.name ∉ l₁.map Card.name :=
        fun hmem1 => hd.2.2 hmem1 (List.mem_cons_self _ _)
      rw [List.foldl_append, List.foldl_cons]
      rw [lookupCount_foldl_not_mem owned kws c.name l₂ _ hn2]
      calc lookupCount
            (stepCard owned kws (l₁.foldl (stepCard owned kws) initState) c).counts
            c.name
          ≤ lookupCount (l₁.foldl (stepCard owned kws) initState).counts c.name
              + owned.count c.name :=
            stepCard_owned_lookup_le _ _ _ _ hcont
        _ = owned.count c.name := by
            rw [lookupCount_foldl_not_mem owned kws c.name l₁ initState hn1]
            simp [initState, lookupCount]
    · rw [lookupCount_foldl_not_mem owned kws name _ _ hmem]
      exact Nat.zero_le _

/-- C5 witness: two owned copies of Shock with one matching keyword yield a
tally of `min(1, 2, 4) = 1`, and the full loop over the one-card pool keeps
the tally within the owned count. -/
theorem c5_witness :
    (lookupCount
        (stepCard ["Shock", "Shock"] ["burn"] initState shockCard).counts
        shockCard.name
      = lookupCount initState.counts shockCard.name
        + min (min (targetCount ["burn"] shockCard)
            (List.count shockCard.name ["Shock", "Shock"])) 4) ∧
      lookupCount
          (((sortByType (filterPool [shockCard] ["burn"] [] "Any")).foldl
            (stepCard ["Shock", "Shock"] ["burn"]) initState).counts) "Shock"
        ≤ List.count "Shock" ["Shock", "Shock"] :=
  ⟨c5_ownership_bound.1 ["Shock", "Shock"] ["burn"] initState shockCard rfl
      (by decide),
    c5_ownership_bound.2 [shockCard] ["Shock", "Shock"] ["burn"] [] "Any"
      "Shock" (by decide) (by decide)⟩

/-- C6: when the loop processes an unowned card (the cutoff has not fired),
the pair `(name, targetCount)` is appended to the suggestion list and the
tally for that card grows by the same `targetCount` — both effects, with
equal counts. -/
theorem c6_unowned_dual_bookkeeping (owned kws : List String) (s : BuildState)
    (c : Card) (hs : s.stopped = false) (hc : owned.contains c.name = false) :
    (stepCard owned kws s c).suggested
        = s.suggested ++ [(c.name, targetCount kws c)] ∧
      lookupCount (stepCard owned kws s c).counts c.name
        = lookupCount s.counts c.name + targetCount kws c := by
  constructor
  · simp only [stepCard, hs, Bool.false_eq_true, if_false, hc]
  · simp only [stepCard, hs, Bool.false_eq_true, if_false, hc]
    exact lookupCount_addCount_self _ _ _

/-- C6 witness: the unowned Shock is suggested with count 1 and tallied
with count 1. -/
theorem c6_witness :
    (stepCard [] ["burn"] initState shockCard).suggested
        = initState.suggested ++ [(shockCard.name, targetCount ["burn"] shockCard)] ∧
      lookupCount (stepCard [] ["burn"] initState shockCard).counts shockCard.name
        = lookupCount initState.counts shockCard.name
          + targetCount ["burn"] shockCard :=
  c6_unowned_dual_bookkeeping [] ["burn"] initState shockCard rfl rfl

/-- C7 counterexample: two filtered records of the same type, `"Beta"`
before `"Alpha"`, are left in that order by the sort (at this two-element
input the source's sort keeps that order as well), so the processing order
violates the claimed type-then-name two-key ordering. -/
theorem c7_counterexample :
    ¬ List.Pairwise specTwoKeyLE
      (sortByType (filterPool [tieCardB, tieCardA] ["burn"] [] "Any")) := by
  decide

/-- C7 (amended): the processing order respects `type` ascending — for
every pair of filtered records the earlier one's type is lexicographically
at most the later one's.  The sort uses no secondary key, so no name-based
ordering (indeed no particular ordering at all) is guaranteed among records
of equal type. -/
theorem c7_sorted_by_type (l : List Card) :
    List.Sorted typeLE (sortByType l) :=
  List.sorted_insertionSort typeLE l

/-- C8: for a non-empty pool and a spec with at least one keyword, the
build function is total and its deck component never exceeds 60 entries. -/
theorem c8_build_bounded (pool : List Card) (owned kws cols : List String)
    (fmt : String) (hpool : pool ≠ []) (hkws : kws ≠ []) :
    (buildDeck pool owned kws cols fmt).1.length ≤ 60 := by
  simp only [buildDeck]
  exact List.length_take_le _ _

/-- C8 witness: the bound evaluated on a one-card pool with one keyword. -/
theorem c8_witness :
    (buildDeck [shockCard] [] ["burn"] [] "Any").1.length ≤ 60 :=
  c8_build_bounded [shockCard] [] ["burn"] [] "Any" (by decide) (by decide)

/-- C9: when the filter stage yields no candidate cards the build returns
the degenerate lands-only (here empty) deck and an empty suggestion list —
a defined value, not a failure. -/
theorem c9_empty_filter_graceful (pool : List Card) (owned kws cols : List String)
    (fmt : String) (h : filterPool pool kws cols fmt = []) :
    buildDeck pool owned kws cols fmt = ([], []) := by
  unfold buildDeck
  rw [h]
  rfl

/-- C9 witness: filtering by `"Standard"` over a pool whose only card is
legal in Historic and Alchemy empties the pool, and the build degrades to
the empty deck without failing. -/
theorem c9_witness : buildDeck [histCard] [] ["burn"] [] "Standard" = ([], []) :=
  c9_empty_filter_graceful [histCard] [] ["burn"] [] "Standard" (by decide)

/-- C10: over any processed card list the running tally never exceeds 39
copies — the cutoff is checked only after a card's copies are added, each
card adds at most 4 copies, and the tally before an addition is at most 35.
Quantifying over every card list covers every intermediate prefix of a
run. -/
theorem c10_tally_never_exceeds_39 (owned kws : List String) (l : List Card) :
    totalCounts ((l.foldl (stepCard owned kws) initState).counts) ≤ 39 :=
  foldl_stepCard_invariant owned kws l initState (by simp [initState, totalCounts])
    (fun _ => by simp [initState, totalCounts])
